import Mathlib

/-!
# urlshort: the redirect handlers of `handler/handler.go`

A shallow embedding of the handlers of `github.com/instinctG/urlshort`:
`MapHandler`, `buildMap`, `parseJSON`, `parseYaml`, `JSONHandler`,
`YAMLHandler` (handler/handler.go) and `hello` (cmd/main.go).

Go values are modelled as follows.

* `string` is `String`; `[]byte` configuration data is the text it holds.
* `map[string]string` is `GoMap`: the nil map, or a list of entries read
  with first-match lookup. A store replaces the entry of its key.
* `error` is `Option Error`, `none` being Go's `nil`.
* `http.Handler` is a function from the request and the state of the
  outside world to an `Outcome`: the call returned, or it panicked. A nil
  handler is `none`.
* The outside world is the trace of library calls made so far
  (`fmt.Println`, `http.Redirect`, `fmt.Fprintln` on the response writer).
  `http.Redirect`, `fmt.Println`, `json.Unmarshal` and `yaml.Unmarshal`
  belong to libraries: the first two are recorded as events with their
  arguments, the decoders are parameters of the functions that call them.
-/

namespace Urlshort

/-! ## Data model -/

/-- Go's `error` values, by their message. -/
abbrev Error := String

/-- The record type `PathToUrl` of handler.go: two plain string fields. -/
structure PathToUrl where
  Path : String
  Url : String
deriving DecidableEq, Repr

/-- Go's `map[string]string`. `nil` is the nil map; `mk es` is a map made by
`make`, holding the entries `es`, read by first match on the key. -/
inductive GoMap where
  | nil : GoMap
  | mk (entries : List (String × String)) : GoMap
deriving DecidableEq, Repr

namespace GoMap

/-- The map returned by `make(map[string]string)`. -/
def make : GoMap := mk []

/-- The entries held by a map; the nil map holds none. -/
def entries : GoMap → List (String × String)
  | nil => []
  | mk es => es

/-- The two-valued read `val, ok := m[k]`: `some val` when `ok`, `none`
otherwise. Reading the nil map is allowed in Go and finds nothing. -/
def get (m : GoMap) (k : String) : Option String :=
  m.entries.lookup k

/-- The keys of a map, in the order of its entries. -/
def keys (m : GoMap) : List String :=
  m.entries.map Prod.fst

/-- The store `m[k] = v` on a map made by `make`: the entry of `k`, if any,
is replaced. (On the nil map the store panics in Go; `buildMap` only stores
into the map it made, see `buildMap_ne_nil`.) -/
def store : GoMap → String → String → GoMap
  | nil, _, _ => nil
  | mk es, k, v => mk ((k, v) :: es.filter (fun e => e.1 != k))

end GoMap

/-! ## `net/url`: the string form of a request URL -/

/-- The fields of `url.URL` that the server fills for a request target in
origin form (`/path?query`). `RawPath`, the optional encoding hint, is not
modelled: the path is rendered in its default encoding. -/
structure URL where
  Path : String
  ForceQuery : Bool
  RawQuery : String
deriving DecidableEq, Repr

/-- The bytes of the UTF-8 encoding of a character. -/
def utf8Bytes (c : Char) : List Nat :=
  let n := c.toNat
  if n < 0x80 then [n]
  else if n < 0x800 then [0xC0 + n / 64, 0x80 + n % 64]
  else if n < 0x10000 then [0xE0 + n / 4096, 0x80 + n / 64 % 64, 0x80 + n % 64]
  else [0xF0 + n / 262144, 0x80 + n / 4096 % 64, 0x80 + n / 64 % 64, 0x80 + n % 64]

/-- The bytes of a Go string. -/
def goBytes (s : String) : List Nat :=
  s.data.flatMap utf8Bytes

/-- The test `shouldEscape(c, encodePath)` of net/url: letters, digits, the marks
`-_.~` and the reserved characters other than `?` stay as they are. -/
def shouldEscapePath (c : Nat) : Bool :=
  if (97 ≤ c ∧ c ≤ 122) ∨ (65 ≤ c ∧ c ≤ 90) ∨ (48 ≤ c ∧ c ≤ 57) then false
  else if c = 45 ∨ c = 95 ∨ c = 46 ∨ c = 126 then false
  else if c = 36 ∨ c = 38 ∨ c = 43 ∨ c = 44 ∨ c = 47 ∨ c = 58 ∨ c = 59
      ∨ c = 61 ∨ c = 64 then false
  else true

/-- The upper-case hexadecimal digit of a value below 16. -/
def upperhex (n : Nat) : Char :=
  if n < 10 then Char.ofNat (48 + n) else Char.ofNat (55 + n)

/-- The function `escape(s, encodePath)` of net/url: every byte that must be escaped
becomes `%XX`. -/
def escapePath (s : String) : String :=
  String.mk ((goBytes s).flatMap (fun b =>
    if shouldEscapePath b then [Char.ofNat 37, upperhex (b / 16), upperhex (b % 16)]
    else [Char.ofNat b]))

/-- The method `(*URL).EscapedPath` without the `RawPath` hint. -/
def URL.EscapedPath (u : URL) : String :=
  if u.Path = "*" then "*" else escapePath u.Path

/-- The method `(*URL).String` for a URL without scheme, host, user and fragment: the
escaped path, preceded by `./` when its first segment holds a colon, then
`?` and the raw query when there is one. -/
def URL.String (u : URL) : String :=
  let path := u.EscapedPath
  let segment := path.data.takeWhile (fun c => c != '/')
  let dotSlash := if segment.contains ':' then "./" else ""
  let query := if u.ForceQuery || u.RawQuery != "" then "?" ++ u.RawQuery else ""
  dotSlash ++ path ++ query

/-! ## Requests, the outside world, handlers -/

/-- The part of `http.Request` the handlers read. -/
structure Request where
  Method : String
  URL : URL
deriving DecidableEq, Repr

/-- An operand of `fmt.Println` or `fmt.Fprintln`. -/
inductive Printed where
  | str (s : String) : Printed
  | map (m : GoMap) : Printed
deriving DecidableEq, Repr

/-- One library call with an effect outside the program. -/
inductive Event where
  /-- The call `fmt.Println(args...)`: a line on standard output. -/
  | println (args : List Printed) : Event
  /-- The call `http.Redirect(w, r, url, code)` on the response writer. -/
  | redirect (r : Request) (url : String) (code : Nat) : Event
  /-- The call `fmt.Fprintln(w, args...)`: a line of the response body. -/
  | fprintln (args : List Printed) : Event
deriving DecidableEq, Repr

/-- The outside world: the calls made so far, oldest first. -/
abbrev World := List Event

/-- How a call of a handler ends. -/
inductive Outcome where
  /-- The handler returned, leaving the world `w`. -/
  | done (w : World) : Outcome
  /-- The handler panicked with `value`, leaving the world `w`. -/
  | panicked (w : World) (value : String) : Outcome
deriving DecidableEq, Repr

/-- A non-nil `http.Handler` (or `http.HandlerFunc`): `ServeHTTP(w, r)`. -/
abbrev Handler := Request → World → Outcome

/-- The constant `http.StatusFound`. -/
def StatusFound : Nat := 302

/-- The panic of a method call on a nil interface value. -/
def nilDereference : String :=
  "runtime error: invalid memory address or nil pointer dereference"

/-! ## handler/handler.go -/

/-- The function `MapHandler` of handler.go: the returned function looks
`r.URL.String()` up in `pathsToUrls`; on a hit it prints `Matched: val` and
calls `http.Redirect(w, r, val, http.StatusFound)`, otherwise it calls
`fallback.ServeHTTP(w, r)`. -/
def MapHandler (pathsToUrls : GoMap) (fallback : Option Handler) : Handler :=
  fun r w =>
    match pathsToUrls.get r.URL.String with
    | some val =>
      let w1 := w ++ [Event.println [Printed.str "Matched:", Printed.str val]]
      Outcome.done (w1 ++ [Event.redirect r val StatusFound])
    | none =>
      match fallback with
      | some h => h r w
      | none => Outcome.panicked w nilDereference

/-- The function `buildMap` of handler.go: a map made by `make`, then one store per pair,
in the order of the slice. -/
def buildMap (pairs : List PathToUrl) : GoMap :=
  pairs.foldl (fun builtMap p => builtMap.store p.Path p.Url) GoMap.make

/-- A decoder such as `json.Unmarshal(data, &pairs)` or
`yaml.Unmarshal(data, &pairs)` called on a nil slice: the slice after the
call and the error returned. -/
abbrev Unmarshal := String → List PathToUrl × Option Error

/-- The function `parseJSON` of handler.go: the decoded slice and the decoder's error. -/
def parseJSON (jsonUnmarshal : Unmarshal) (jsonData : String) :
    List PathToUrl × Option Error :=
  jsonUnmarshal jsonData

/-- The function `parseYaml` of handler.go: the decoded slice and the decoder's error. -/
def parseYaml (yamlUnmarshal : Unmarshal) (yamlData : String) :
    List PathToUrl × Option Error :=
  yamlUnmarshal yamlData

/-- The function `JSONHandler` of handler.go: `(nil, err)` when `parseJSON` fails,
otherwise the `MapHandler` over the built map and a nil error. -/
def JSONHandler (jsonUnmarshal : Unmarshal) (jsonData : String)
    (fallback : Option Handler) : Option Handler × Option Error :=
  match parseJSON jsonUnmarshal jsonData with
  | (_, some err) => (none, some err)
  | (parsedJSON, none) =>
    let pathMap := buildMap parsedJSON
    (some (MapHandler pathMap fallback), none)

/-- The function `YAMLHandler` of handler.go: `(nil, err)` when `parseYaml` fails,
otherwise it prints the built map and returns the `MapHandler` over it and
a nil error. The third component is the world after the call. -/
def YAMLHandler (yamlUnmarshal : Unmarshal) (yamlData : String)
    (fallback : Option Handler) (w : World) :
    Option Handler × Option Error × World :=
  match parseYaml yamlUnmarshal yamlData with
  | (_, some err) => (none, some err, w)
  | (parsedYaml, none) =>
    let pathMap := buildMap parsedYaml
    let w1 := w ++ [Event.println [Printed.map pathMap]]
    (some (MapHandler pathMap fallback), none, w1)

/-! ## cmd/main.go -/

/-- The handler `hello` of main.go: `fmt.Fprintln(w, "Hello, world!")`. -/
def hello : Handler :=
  fun _ w => Outcome.done (w ++ [Event.fprintln [Printed.str "Hello, world!"]])

/-- The map literal `pathsToUrls` of `main`. -/
def pathsToUrls : GoMap :=
  GoMap.mk [("/urlshort-godoc", "https://godoc.org/github.com/gophercises/urlshort"),
    ("/yaml-godoc", "https://godoc.org/gopkg.in/yaml.v2")]

/-! ## Chains of handlers -/

/-- The nesting `MapHandler(m1, MapHandler(m2, ... MapHandler(mn, t)))`. -/
def chain : List GoMap → Handler → Handler
  | [], t => t
  | m :: ms, t => MapHandler m (some (chain ms t))

/-- The world after a matched request: the line `Matched: val` on standard
output, then the redirect to `val` with status 302. -/
def matched (r : Request) (w : World) (val : String) : World :=
  w ++ [Event.println [Printed.str "Matched:", Printed.str val], Event.redirect r val 302]

/-- A request in origin form with the given path and raw query. -/
def request (path query : String) : Request :=
  { Method := "GET", URL := { Path := path, ForceQuery := false, RawQuery := query } }

/-! ## A fragment of yaml.v2

`yaml.Unmarshal` belongs to gopkg.in/yaml.v2. To evaluate `YAMLHandler` on
a concrete document, the decoding of `[]PathToUrl` is modelled here on the
documents of the shape shown in the comment of `YAMLHandler`: a block
sequence of flat mappings, one `key: value` per line, the first line of a
record starting with `- ` and the following ones with two blanks. The
decoding of a record follows the library's rules for a struct without yaml
tags: the key that is the lower-cased name of a field sets that field,
another key is ignored, a field without key keeps its zero value, and a
null scalar sets the zero value. -/

/-- A letter `a-z` or `A-Z`. -/
def isLetter (c : Char) : Bool :=
  (97 ≤ c.toNat && c.toNat ≤ 122) || (65 ≤ c.toNat && c.toNat ≤ 90)

/-- A character of the plain scalars of the fragment: a letter, a digit or
one of `/ . _ - :`. -/
def isPlainChar (c : Char) : Bool :=
  isLetter c || (48 ≤ c.toNat && c.toNat ≤ 57) ||
    c = '/' || c = '.' || c = '_' || c = '-' || c = ':'

/-- A plain scalar of the fragment: it starts with a letter, a digit or a
slash, holds plain characters only and does not end in a colon. -/
def isPlainScalar (v : List Char) : Bool :=
  match v with
  | [] => false
  | c :: _ =>
    (isLetter c || (48 ≤ c.toNat && c.toNat ≤ 57) || c = '/') &&
      v.all isPlainChar && v.getLast? != some ':'

/-- The lines of a text, split at the line feeds. -/
def splitLines : List Char → List (List Char)
  | [] => [[]]
  | c :: cs =>
    if c = Char.ofNat 10 then [] :: splitLines cs
    else
      match splitLines cs with
      | l :: ls => (c :: l) :: ls
      | [] => [[c]]

/-- One `key: value` of a record: the key is a word of letters, the value a
plain scalar. -/
def yamlEntry (l : List Char) : Option (String × String) :=
  let key := l.takeWhile isLetter
  match l.dropWhile isLetter with
  | ':' :: ' ' :: value =>
    if key != [] && isPlainScalar value then some (String.mk key, String.mk value)
    else none
  | _ => none

/-- The string a scalar sets a `string` field to: its text, or the zero
value when the scalar is null. -/
def yamlString (value : String) : String :=
  if value = "null" ∨ value = "Null" ∨ value = "NULL" then "" else value

/-- A `key: value` decoded into a record: `path` sets `Path`, `url` sets
`Url`, another key is ignored. -/
def yamlField (p : PathToUrl) (e : String × String) : PathToUrl :=
  if e.1 = "path" then { p with Path := yamlString e.2 }
  else if e.1 = "url" then { p with Url := yamlString e.2 }
  else p

/-- One line of the document added to the records decoded so far; `none`
when the line is outside the fragment. -/
def yamlLine (acc : Option (List PathToUrl)) (l : List Char) : Option (List PathToUrl) :=
  match acc, l with
  | some rs, '-' :: ' ' :: rest =>
    (yamlEntry rest).map (fun e => rs ++ [yamlField { Path := "", Url := "" } e])
  | some rs, ' ' :: ' ' :: rest =>
    match rs.getLast?, yamlEntry rest with
    | some p, some e => some (rs.dropLast ++ [yamlField p e])
    | _, _ => none
  | _, _ => none

/-- The lines of a document, without the empty line after a final line
feed. -/
def yamlLines (data : String) : List (List Char) :=
  let ls := splitLines data.data
  if ls.getLast? = some [] then ls.dropLast else ls

/-- A model of `yaml.Unmarshal(data, &pairs)` on the fragment: the records
of the document and a nil error. A document outside the fragment is not
modelled; the function reports it as an error, and nothing below evaluates
it on such a document. -/
def yamlUnmarshal : Unmarshal :=
  fun data =>
    match (yamlLines data).foldl yamlLine (some []) with
    | some rs => (rs, none)
    | none => ([], some "yaml: document outside the modelled fragment")

/-! ## Lemmas on maps -/

theorem lookup_filter_ne (es : List (String × String)) (k k' : String) :
    (es.filter (fun e => e.1 != k)).lookup k' = if k' = k then none else es.lookup k' := by
  induction es with
  | nil => simp
  | cons e es ih =>
    obtain ⟨a, b⟩ := e
    by_cases hak : a = k
    · subst hak
      have hf : List.filter (fun e => e.1 != a) ((a, b) :: es)
          = List.filter (fun e => e.1 != a) es := by simp [List.filter]
      rw [hf, ih]
      by_cases hk : k' = a
      · simp [hk]
      · have : (k' == a) = false := by simpa using hk
        simp [hk, List.lookup, this]
    · have hf : List.filter (fun e => e.1 != k) ((a, b) :: es)
          = (a, b) :: List.filter (fun e => e.1 != k) es := by
        have hne : (a != k) = true := by simpa using hak
        simp [List.filter, hne]
      rw [hf]
      by_cases hka : k' = a
      · have hk : k' ≠ k := fun e => hak (hka.symm.trans e)
        simp [List.lookup, hka, hak]
      · have : (k' == a) = false := by simpa using hka
        simp [List.lookup, this, ih]

theorem GoMap.get_store_mk (es : List (String × String)) (k v k' : String) :
    ((GoMap.mk es).store k v).get k' = if k' = k then some v else (GoMap.mk es).get k' := by
  by_cases hk : k' = k
  · simp [GoMap.store, GoMap.get, GoMap.entries, List.lookup, hk]
  · have : (k' == k) = false := by simpa using hk
    simp [GoMap.store, GoMap.get, GoMap.entries, List.lookup, hk, this, lookup_filter_ne]

theorem GoMap.keys_store_mk (es : List (String × String)) (k v : String) :
    ((GoMap.mk es).store k v).keys = k :: ((GoMap.mk es).keys.filter (fun a => a != k)) := by
  simp [GoMap.store, GoMap.keys, GoMap.entries, List.filter_map, Function.comp_def]

theorem buildMap_append (l : List PathToUrl) (p : PathToUrl) :
    buildMap (l ++ [p]) = (buildMap l).store p.Path p.Url := by
  simp [buildMap, List.foldl_append]

/-- The map built by `buildMap` is never the nil map: every store of the
loop is a store into a map made by `make`. -/
theorem buildMap_ne_nil (pairs : List PathToUrl) : ∃ es, buildMap pairs = GoMap.mk es := by
  induction pairs using List.reverseRecOn with
  | nil => exact ⟨[], rfl⟩
  | append_singleton l p ih =>
    obtain ⟨es, hes⟩ := ih
    exact ⟨_, by rw [buildMap_append, hes]; rfl⟩

theorem get_buildMap_append (l : List PathToUrl) (p : PathToUrl) (k : String) :
    (buildMap (l ++ [p])).get k = if k = p.Path then some p.Url else (buildMap l).get k := by
  obtain ⟨es, hes⟩ := buildMap_ne_nil l
  rw [buildMap_append, hes, GoMap.get_store_mk]

theorem keys_buildMap_append (l : List PathToUrl) (p : PathToUrl) :
    (buildMap (l ++ [p])).keys = p.Path :: ((buildMap l).keys.filter (fun a => a != p.Path)) := by
  obtain ⟨es, hes⟩ := buildMap_ne_nil l
  rw [buildMap_append, hes, GoMap.keys_store_mk]

/-- A path carried by no pair has no entry in the built map. -/
theorem get_buildMap_none (pairs : List PathToUrl) (k : String)
    (h : ∀ p ∈ pairs, p.Path ≠ k) : (buildMap pairs).get k = none := by
  induction pairs using List.reverseRecOn with
  | nil => rfl
  | append_singleton l p ih =>
    rw [get_buildMap_append]
    have hp : k ≠ p.Path := fun e => h p (by simp) e.symm
    rw [if_neg hp]
    exact ih (fun q hq => h q (by simp [hq]))

/-- The built map sends a path to the url of the last pair carrying it. -/
theorem get_buildMap_last (pre post : List PathToUrl) (p : PathToUrl)
    (h : ∀ q ∈ post, q.Path ≠ p.Path) :
    (buildMap (pre ++ p :: post)).get p.Path = some p.Url := by
  induction post using List.reverseRecOn with
  | nil => rw [get_buildMap_append]; simp
  | append_singleton l q ih =>
    have e : pre ++ p :: (l ++ [q]) = (pre ++ p :: l) ++ [q] := by simp
    rw [e, get_buildMap_append]
    have hq : p.Path ≠ q.Path := fun e => h q (by simp) e.symm
    rw [if_neg hq]
    exact ih (fun r hr => h r (by simp [hr]))

theorem mem_keys_buildMap (pairs : List PathToUrl) (k : String) :
    k ∈ (buildMap pairs).keys ↔ ∃ p ∈ pairs, p.Path = k := by
  induction pairs using List.reverseRecOn with
  | nil => simp [buildMap, GoMap.make, GoMap.keys, GoMap.entries]
  | append_singleton l p ih =>
    rw [keys_buildMap_append]
    by_cases hk : k = p.Path
    · subst hk
      exact ⟨fun _ => ⟨p, by simp, rfl⟩, fun _ => by simp⟩
    · constructor
      · intro h
        rcases List.mem_cons.1 h with h | h
        · exact absurd h hk
        · obtain ⟨q, hq, hqk⟩ := ih.1 (List.mem_filter.1 h).1
          exact ⟨q, List.mem_append_left _ hq, hqk⟩
      · rintro ⟨q, hq, hqk⟩
        rcases List.mem_append.1 hq with hq | hq
        · exact List.mem_cons_of_mem _
            (List.mem_filter.2 ⟨ih.2 ⟨q, hq, hqk⟩, by simpa using hk⟩)
        · have hqp : q = p := by simpa using hq
          subst hqp
          exact absurd hqk.symm hk

theorem nodup_keys_buildMap (pairs : List PathToUrl) : (buildMap pairs).keys.Nodup := by
  induction pairs using List.reverseRecOn with
  | nil => simp [buildMap, GoMap.make, GoMap.keys, GoMap.entries]
  | append_singleton l p ih =>
    rw [keys_buildMap_append, List.nodup_cons]
    exact ⟨by simp [List.mem_filter], ih.filter _⟩

/-- With pairwise distinct paths, the map built from any arrangement of the
pairs sends the path of each pair to the url of that pair. -/
theorem get_buildMap_of_mem (pairs : List PathToUrl) (p : PathToUrl)
    (hd : (pairs.map PathToUrl.Path).Nodup) (hp : p ∈ pairs) :
    (buildMap pairs).get p.Path = some p.Url := by
  obtain ⟨pre, post, rfl⟩ := List.append_of_mem hp
  refine get_buildMap_last pre post p (fun q hq hqp => ?_)
  rw [List.map_append, List.map_cons] at hd
  have hnd := (List.nodup_append.1 hd).2.1
  rw [List.nodup_cons] at hnd
  exact hnd.1 (hqp ▸ List.mem_map_of_mem PathToUrl.Path hq)

/-- With pairwise distinct paths, the lookups of the built map do not depend
on the order of the pairs. -/
theorem get_buildMap_perm (pairs perm : List PathToUrl)
    (hd : (pairs.map PathToUrl.Path).Nodup) (hperm : perm.Perm pairs) (k : String) :
    (buildMap perm).get k = (buildMap pairs).get k := by
  have hd2 : (perm.map PathToUrl.Path).Nodup := (hperm.map PathToUrl.Path).nodup_iff.2 hd
  by_cases h : ∃ p ∈ pairs, p.Path = k
  · obtain ⟨p, hp, rfl⟩ := h
    rw [get_buildMap_of_mem pairs p hd hp,
      get_buildMap_of_mem perm p hd2 (hperm.mem_iff.2 hp)]
  · have h1 : ∀ p ∈ pairs, p.Path ≠ k := fun p hp e => h ⟨p, hp, e⟩
    have h2 : ∀ p ∈ perm, p.Path ≠ k := fun p hp e => h ⟨p, hperm.mem_iff.1 hp, e⟩
    rw [get_buildMap_none pairs k h1, get_buildMap_none perm k h2]

/-- The entry of a path carried by some pair is the url of a pair carrying
that path. -/
theorem get_buildMap_mem (pairs : List PathToUrl) (k : String)
    (h : ∃ p ∈ pairs, p.Path = k) :
    ∃ q ∈ pairs, q.Path = k ∧ (buildMap pairs).get k = some q.Url := by
  induction pairs using List.reverseRecOn with
  | nil => simp at h
  | append_singleton l p ih =>
    by_cases hk : k = p.Path
    · exact ⟨p, by simp, hk.symm, by rw [get_buildMap_append, if_pos hk]⟩
    · obtain ⟨q0, hq0, hq0k⟩ := h
      have hl : ∃ q ∈ l, q.Path = k := by
        rcases List.mem_append.1 hq0 with hq | hq
        · exact ⟨q0, hq, hq0k⟩
        · have hqp : q0 = p := by simpa using hq
          subst hqp
          exact absurd hq0k.symm hk
      obtain ⟨q, hq, hqk, hget⟩ := ih hl
      exact ⟨q, List.mem_append_left _ hq, hqk, by rw [get_buildMap_append, if_neg hk, hget]⟩

/-! ## Lemmas on `MapHandler` -/

theorem MapHandler_hit (m : GoMap) (f : Option Handler) (r : Request) (w : World) (v : String)
    (h : m.get r.URL.String = some v) : MapHandler m f r w = Outcome.done (matched r w v) := by
  simp [MapHandler, h, matched, StatusFound]

theorem MapHandler_miss (m : GoMap) (f : Handler) (r : Request) (w : World)
    (h : m.get r.URL.String = none) : MapHandler m (some f) r w = f r w := by
  simp [MapHandler, h]

theorem MapHandler_miss_nil (m : GoMap) (r : Request) (w : World)
    (h : m.get r.URL.String = none) :
    MapHandler m none r w = Outcome.panicked w nilDereference := by
  simp [MapHandler, h]

theorem matched_injective (r : Request) (w : World) (v1 v2 : String)
    (h : matched r w v1 = matched r w v2) : v1 = v2 := by
  have h2 := List.append_cancel_left h
  simp at h2
  exact h2

/-! ## The claims -/

/-- C1: for every mapping `m`, every fallback `f` (the nil handler included)
and every request whose lookup key `r.URL.String()` is a key `k` of `m`, the
handler `MapHandler m f` returns after a call of `http.Redirect` whose status
is `http.StatusFound`, that is 302, and whose destination is exactly `m[k]`. -/
theorem MapHandler_redirects_found (m : GoMap) (f : Option Handler) (r : Request) (w : World)
    (k v : String) (hk : r.URL.String = k) (hv : m.get k = some v) :
    StatusFound = 302 ∧
    MapHandler m f r w = Outcome.done
      (w ++ [Event.println [Printed.str "Matched:", Printed.str v],
        Event.redirect r v StatusFound]) := by
  subst hk
  exact ⟨rfl, MapHandler_hit m f r w v hv⟩

theorem MapHandler_redirects_found_witness :
    (request "/urlshort-godoc" "").URL.String = "/urlshort-godoc" ∧
    pathsToUrls.get "/urlshort-godoc"
      = some "https://godoc.org/github.com/gophercises/urlshort" ∧
    MapHandler pathsToUrls (some hello) (request "/urlshort-godoc" "") [] = Outcome.done
      [Event.println [Printed.str "Matched:",
          Printed.str "https://godoc.org/github.com/gophercises/urlshort"],
        Event.redirect (request "/urlshort-godoc" "")
          "https://godoc.org/github.com/gophercises/urlshort" 302] :=
  ⟨by decide, by decide,
    (MapHandler_redirects_found pathsToUrls (some hello) (request "/urlshort-godoc" "") []
      "/urlshort-godoc" "https://godoc.org/github.com/gophercises/urlshort"
      (by decide) (by decide)).2⟩

/-- C2: for every chain `MapHandler(m1, MapHandler(m2, ... MapHandler(mn, t)))`
of any length `n ≥ 0` and every request whose lookup key is a key of none of
`m1 .. mn`, the outcome of the chain is exactly the outcome of the terminal
handler `t` on the same request and world. -/
theorem chain_unmatched_reaches_terminal (ms : List GoMap) (t : Handler) (r : Request)
    (w : World) (h : ∀ m ∈ ms, m.get r.URL.String = none) :
    chain ms t r w = t r w := by
  induction ms with
  | nil => rfl
  | cons m ms ih =>
    have hm : m.get r.URL.String = none := h m (by simp)
    have hrest : chain ms t r w = t r w := ih (fun m' hm' => h m' (by simp [hm']))
    show MapHandler m (some (chain ms t)) r w = t r w
    rw [MapHandler_miss m (chain ms t) r w hm, hrest]

theorem chain_unmatched_reaches_terminal_witness :
    (∀ m ∈ [buildMap [{ Path := "/a", Url := "https://a.example" }], pathsToUrls],
      m.get (request "/not-a-path" "").URL.String = none) ∧
    chain [buildMap [{ Path := "/a", Url := "https://a.example" }], pathsToUrls] hello
      (request "/not-a-path" "") []
      = Outcome.done [Event.fprintln [Printed.str "Hello, world!"]] :=
  ⟨by decide,
    chain_unmatched_reaches_terminal
      [buildMap [{ Path := "/a", Url := "https://a.example" }], pathsToUrls] hello
      (request "/not-a-path" "") [] (by decide)⟩

/-- C3: chain ordering. For every two mappings `m1`, `m2`, every terminal
handler `t` and every request whose lookup key `p` is a key of both, the chain
`MapHandler(m1, MapHandler(m2, t))` redirects to `m1[p]`, the entry of the
outermost mapping, and its outcome is not the redirect to `m2[p]` when the
two entries differ. -/
theorem chain_outermost_wins (m1 m2 : GoMap) (t : Handler) (r : Request) (w : World)
    (p v1 v2 : String) (hp : r.URL.String = p)
    (h1 : m1.get p = some v1) (h2 : m2.get p = some v2) :
    MapHandler m1 (some (MapHandler m2 (some t))) r w = Outcome.done
      (w ++ [Event.println [Printed.str "Matched:", Printed.str v1],
        Event.redirect r v1 302]) ∧
    (v1 ≠ v2 →
      MapHandler m1 (some (MapHandler m2 (some t))) r w ≠ Outcome.done
        (w ++ [Event.println [Printed.str "Matched:", Printed.str v2],
          Event.redirect r v2 302])) := by
  subst hp
  have hit := MapHandler_hit m1 (some (MapHandler m2 (some t))) r w v1 h1
  refine ⟨hit, fun hne hcontra => hne ?_⟩
  rw [hit] at hcontra
  exact matched_injective r w v1 v2 (Outcome.done.inj hcontra)

theorem chain_outermost_wins_witness :
    (request "/a" "").URL.String = "/a" ∧
    (GoMap.mk [("/a", "X")]).get "/a" = some "X" ∧
    (GoMap.mk [("/a", "Y")]).get "/a" = some "Y" ∧
    MapHandler (GoMap.mk [("/a", "X")]) (some (MapHandler (GoMap.mk [("/a", "Y")]) (some hello)))
      (request "/a" "") []
      = Outcome.done [Event.println [Printed.str "Matched:", Printed.str "X"],
          Event.redirect (request "/a" "") "X" 302] :=
  ⟨by decide, by decide, by decide,
    (chain_outermost_wins (GoMap.mk [("/a", "X")]) (GoMap.mk [("/a", "Y")]) hello
      (request "/a" "") [] "/a" "X" "Y" (by decide) (by decide) (by decide)).1⟩

/-- C4: round trip. For every list of pairs with pairwise distinct paths and
every permutation `perm` of it, the handler `MapHandler (buildMap perm) f`
redirects a request whose lookup key is the path of a pair to exactly the url
of that pair, and it is the same handler as the one built from the list in
its original order. -/
theorem buildMap_round_trip (pairs perm : List PathToUrl) (f : Option Handler)
    (hd : (pairs.map PathToUrl.Path).Nodup) (hperm : perm.Perm pairs) :
    (∀ p ∈ pairs, ∀ (r : Request) (w : World), r.URL.String = p.Path →
      MapHandler (buildMap perm) f r w = Outcome.done
        (w ++ [Event.println [Printed.str "Matched:", Printed.str p.Url],
          Event.redirect r p.Url 302])) ∧
    MapHandler (buildMap perm) f = MapHandler (buildMap pairs) f := by
  constructor
  · intro p hp r w hr
    have hget : (buildMap perm).get r.URL.String = some p.Url := by
      rw [hr, get_buildMap_perm pairs perm hd hperm]
      exact get_buildMap_of_mem pairs p hd hp
    exact MapHandler_hit (buildMap perm) f r w p.Url hget
  · funext r w
    have hget := get_buildMap_perm pairs perm hd hperm r.URL.String
    simp only [MapHandler, hget]

theorem buildMap_round_trip_witness :
    ([{ Path := "/a", Url := "X" }, { Path := "/b", Url := "Y" }].map PathToUrl.Path).Nodup ∧
    MapHandler (buildMap [{ Path := "/b", Url := "Y" }, { Path := "/a", Url := "X" }])
      (some hello) (request "/a" "") []
      = Outcome.done [Event.println [Printed.str "Matched:", Printed.str "X"],
          Event.redirect (request "/a" "") "X" 302] :=
  ⟨by decide,
    (buildMap_round_trip [{ Path := "/a", Url := "X" }, { Path := "/b", Url := "Y" }]
      [{ Path := "/b", Url := "Y" }, { Path := "/a", Url := "X" }] (some hello)
      (by decide) (List.Perm.swap _ _ _)).1 { Path := "/a", Url := "X" } (by simp)
      (request "/a" "") [] (by decide)⟩

/-- C5: for every list of pairs, the keys of `buildMap pairs` are exactly the
paths occurring in the list, each once; a path is mapped to the url of the
last pair of the list that carries it; a path that occurs in no pair has no
entry. -/
theorem buildMap_last_write_wins (pairs : List PathToUrl) :
    (buildMap pairs).keys.Nodup ∧
    (∀ k, k ∈ (buildMap pairs).keys ↔ ∃ p ∈ pairs, p.Path = k) ∧
    (∀ pre p post, pairs = pre ++ p :: post → (∀ q ∈ post, q.Path ≠ p.Path) →
      (buildMap pairs).get p.Path = some p.Url) ∧
    (∀ k, (∀ p ∈ pairs, p.Path ≠ k) → (buildMap pairs).get k = none) := by
  refine ⟨nodup_keys_buildMap pairs, mem_keys_buildMap pairs, ?_, get_buildMap_none pairs⟩
  rintro pre p post rfl hpost
  exact get_buildMap_last pre post p hpost

theorem buildMap_last_write_wins_witness :
    (buildMap [{ Path := "/a", Url := "X" }, { Path := "/b", Url := "Y" },
      { Path := "/a", Url := "Z" }]).keys.Nodup ∧
    (buildMap [{ Path := "/a", Url := "X" }, { Path := "/b", Url := "Y" },
      { Path := "/a", Url := "Z" }]).get "/a" = some "Z" :=
  ⟨(buildMap_last_write_wins [{ Path := "/a", Url := "X" }, { Path := "/b", Url := "Y" },
      { Path := "/a", Url := "Z" }]).1,
    (buildMap_last_write_wins [{ Path := "/a", Url := "X" }, { Path := "/b", Url := "Y" },
      { Path := "/a", Url := "Z" }]).2.2.1
      [{ Path := "/a", Url := "X" }, { Path := "/b", Url := "Y" }] { Path := "/a", Url := "Z" } []
      rfl (by simp)⟩

/-- C6: for every decoder, configuration and fallback, `JSONHandler` (resp.
`YAMLHandler`) returns a non-nil error exactly when `parseJSON` (resp.
`parseYaml`) does; the error is then that of the decoder and the handler is
nil; otherwise the handler is `MapHandler (buildMap pairs) fallback` over
the decoded pairs and the error is nil. -/
theorem handlers_fail_iff_decoding_fails (unmarshal : Unmarshal) (data : String)
    (fallback : Option Handler) (w : World) :
    (((JSONHandler unmarshal data fallback).2 ≠ none ↔ (parseJSON unmarshal data).2 ≠ none) ∧
      (∀ err, (parseJSON unmarshal data).2 = some err →
        JSONHandler unmarshal data fallback = (none, some err)) ∧
      ((parseJSON unmarshal data).2 = none →
        JSONHandler unmarshal data fallback
          = (some (MapHandler (buildMap (parseJSON unmarshal data).1) fallback), none))) ∧
    (((YAMLHandler unmarshal data fallback w).2.1 ≠ none
        ↔ (parseYaml unmarshal data).2 ≠ none) ∧
      (∀ err, (parseYaml unmarshal data).2 = some err →
        YAMLHandler unmarshal data fallback w = (none, some err, w)) ∧
      ((parseYaml unmarshal data).2 = none →
        YAMLHandler unmarshal data fallback w
          = (some (MapHandler (buildMap (parseYaml unmarshal data).1) fallback), none,
              w ++ [Event.println [Printed.map (buildMap (parseYaml unmarshal data).1)]]))) := by
  unfold JSONHandler YAMLHandler
  rcases hj : parseJSON unmarshal data with ⟨pj, _ | ej⟩ <;>
    rcases hy : parseYaml unmarshal data with ⟨py, _ | ey⟩ <;> simp

/-- C7, counterexample: the document `- path: /a`, whose only record has no
`url`, is decoded without error; `YAMLHandler` returns a nil error and a
handler, and that handler redirects `/a` to the empty URL. -/
theorem YAMLHandler_accepts_missing_url :
    yamlUnmarshal "- path: /a" = ([{ Path := "/a", Url := "" }], none) ∧
    ¬ ((YAMLHandler yamlUnmarshal "- path: /a" (some hello) []).2.1 ≠ none) ∧
    ((YAMLHandler yamlUnmarshal "- path: /a" (some hello) []).1.map
        (fun h => h (request "/a" "") []))
      = some (Outcome.done [Event.println [Printed.str "Matched:", Printed.str ""],
          Event.redirect (request "/a" "") "" 302]) := by
  decide

/-- C7, amended: `YAMLHandler` makes no check of its own on the decoded
records. Whenever the decoder reports no error, it returns a nil error and the
handler over the map built from the records; a record whose path only occurs
with the zero value as url (the field was missing) has that path redirected to
the empty URL. -/
theorem YAMLHandler_builds_from_decoded_records (unmarshal : Unmarshal) (yamlData : String)
    (fallback : Option Handler) (w : World) (pairs : List PathToUrl) (p : PathToUrl)
    (hdec : unmarshal yamlData = (pairs, none)) (hp : p ∈ pairs)
    (hurl : ∀ q ∈ pairs, q.Path = p.Path → q.Url = "") :
    YAMLHandler unmarshal yamlData fallback w
      = (some (MapHandler (buildMap pairs) fallback), none,
          w ++ [Event.println [Printed.map (buildMap pairs)]]) ∧
    ∀ (r : Request) (w1 : World), r.URL.String = p.Path →
      MapHandler (buildMap pairs) fallback r w1 = Outcome.done
        (w1 ++ [Event.println [Printed.str "Matched:", Printed.str ""],
          Event.redirect r "" 302]) := by
  constructor
  · simp [YAMLHandler, parseYaml, hdec]
  · intro r w1 hr
    obtain ⟨q, hq, hqk, hget⟩ := get_buildMap_mem pairs p.Path ⟨p, hp, rfl⟩
    rw [hurl q hq hqk, ← hr] at hget
    exact MapHandler_hit (buildMap pairs) fallback r w1 "" hget

theorem YAMLHandler_builds_from_decoded_records_witness :
    yamlUnmarshal "- path: /a" = ([{ Path := "/a", Url := "" }], none) ∧
    YAMLHandler yamlUnmarshal "- path: /a" (some hello) []
      = (some (MapHandler (buildMap [{ Path := "/a", Url := "" }]) (some hello)), none,
          [Event.println [Printed.map (buildMap [{ Path := "/a", Url := "" }])]]) :=
  ⟨by decide,
    (YAMLHandler_builds_from_decoded_records yamlUnmarshal "- path: /a" (some hello) []
      [{ Path := "/a", Url := "" }] { Path := "/a", Url := "" } (by decide) (by simp)
      (by simp)).1⟩

/-- C8, counterexample: with the nil fallback, which the signature of
`MapHandler` accepts, a request whose lookup key is not in the map does not
complete: the call of `fallback.ServeHTTP` panics. -/
theorem MapHandler_nil_fallback_panics :
    MapHandler pathsToUrls none (request "/not-a-path" "") []
      = Outcome.panicked [] nilDereference ∧
    ¬ ∃ w1, MapHandler pathsToUrls none (request "/not-a-path" "") [] = Outcome.done w1 := by
  have h : MapHandler pathsToUrls none (request "/not-a-path" "") []
      = Outcome.panicked [] nilDereference := by decide
  refine ⟨h, ?_⟩
  rintro ⟨w1, hw1⟩
  rw [h] at hw1
  exact Outcome.noConfusion hw1

/-- C8, amended: for every mapping (the empty and the nil one included) and
every request, serving with `MapHandler m fallback` completes without panic
when the lookup key is a key of `m`, whatever the fallback, or when the
fallback is a non-nil handler that completes on that request; it then ends
either in the redirect or in the outcome of the fallback. -/
theorem MapHandler_completes (m : GoMap) (fallback : Option Handler) (r : Request) (w : World)
    (h : m.get r.URL.String ≠ none ∨ ∃ f w1, fallback = some f ∧ f r w = Outcome.done w1) :
    ∃ w1, MapHandler m fallback r w = Outcome.done w1 ∧
      ((∃ v, m.get r.URL.String = some v ∧
          w1 = w ++ [Event.println [Printed.str "Matched:", Printed.str v],
            Event.redirect r v 302]) ∨
        (m.get r.URL.String = none ∧ ∃ f, fallback = some f ∧ f r w = Outcome.done w1)) := by
  rcases hget : m.get r.URL.String with _ | v
  · rcases h with h | ⟨f, w1, hf, hw1⟩
    · exact absurd hget h
    · subst hf
      exact ⟨w1, by rw [MapHandler_miss m f r w hget, hw1], Or.inr ⟨rfl, f, rfl, hw1⟩⟩
  · exact ⟨_, MapHandler_hit m fallback r w v hget, Or.inl ⟨v, rfl, rfl⟩⟩

theorem MapHandler_completes_witness :
    hello (request "/a" "") [] = Outcome.done [Event.fprintln [Printed.str "Hello, world!"]] ∧
    pathsToUrls.get (request "/yaml-godoc" "").URL.String ≠ none ∧
    (∃ w1, MapHandler GoMap.nil (some hello) (request "/a" "") [] = Outcome.done w1) ∧
    (∃ w1, MapHandler pathsToUrls none (request "/yaml-godoc" "") [] = Outcome.done w1) :=
  ⟨rfl, by decide,
    (MapHandler_completes GoMap.nil (some hello) (request "/a" "") []
      (Or.inr ⟨hello, [Event.fprintln [Printed.str "Hello, world!"]], rfl, rfl⟩)).imp
      (fun _ h => h.1),
    (MapHandler_completes pathsToUrls none (request "/yaml-godoc" "") []
      (Or.inl (by decide))).imp (fun _ h => h.1)⟩

/-- C9, the code at the failing input: two requests with the same path
`/urlshort-godoc`, one without query and one with the query `utm=1`; the map
of `main` holds the path. The first is redirected, the second is handed to
the fallback, because the lookup key is `r.URL.String()`, the path followed
by `?` and the query. -/
theorem MapHandler_query_changes_outcome :
    (request "/urlshort-godoc" "").URL.Path = (request "/urlshort-godoc" "utm=1").URL.Path ∧
    (request "/urlshort-godoc" "utm=1").URL.String = "/urlshort-godoc?utm=1" ∧
    MapHandler pathsToUrls (some hello) (request "/urlshort-godoc" "") []
      = Outcome.done [Event.println [Printed.str "Matched:",
            Printed.str "https://godoc.org/github.com/gophercises/urlshort"],
          Event.redirect (request "/urlshort-godoc" "")
            "https://godoc.org/github.com/gophercises/urlshort" 302] ∧
    MapHandler pathsToUrls (some hello) (request "/urlshort-godoc" "utm=1") []
      = Outcome.done [Event.fprintln [Printed.str "Hello, world!"]] := by
  decide

/-- C10, counterexample: on a match the redirect is not the only effect; the
world after the call also holds the line `Matched: val` written to standard
output by `fmt.Println`. -/
theorem MapHandler_match_also_prints :
    MapHandler pathsToUrls (some hello) (request "/yaml-godoc" "") []
      ≠ Outcome.done [Event.redirect (request "/yaml-godoc" "")
          "https://godoc.org/gopkg.in/yaml.v2" 302] ∧
    MapHandler pathsToUrls (some hello) (request "/yaml-godoc" "") []
      = Outcome.done [Event.println [Printed.str "Matched:",
            Printed.str "https://godoc.org/gopkg.in/yaml.v2"],
          Event.redirect (request "/yaml-godoc" "")
            "https://godoc.org/gopkg.in/yaml.v2" 302] := by
  decide

/-- C10, amended: on a match the effects of `MapHandler m f` are exactly two,
in this order: the line `Matched: val` on standard output and the redirect to
`val`; nothing else is emitted, the fallback is not invoked, and the outcome
is the same for every choice of fallback. -/
theorem MapHandler_match_effects (m : GoMap) (f g : Option Handler) (r : Request) (w : World)
    (k v : String) (hk : r.URL.String = k) (hv : m.get k = some v) :
    MapHandler m f r w = Outcome.done
      (w ++ [Event.println [Printed.str "Matched:", Printed.str v],
        Event.redirect r v 302]) ∧
    MapHandler m f r w = MapHandler m g r w := by
  subst hk
  rw [MapHandler_hit m f r w v hv, MapHandler_hit m g r w v hv]
  exact ⟨rfl, rfl⟩

theorem MapHandler_match_effects_witness :
    (request "/yaml-godoc" "").URL.String = "/yaml-godoc" ∧
    pathsToUrls.get "/yaml-godoc" = some "https://godoc.org/gopkg.in/yaml.v2" ∧
    MapHandler pathsToUrls (some hello) (request "/yaml-godoc" "") []
      = MapHandler pathsToUrls none (request "/yaml-godoc" "") [] :=
  ⟨by decide, by decide, (MapHandler_match_effects pathsToUrls (some hello) none (request "/yaml-godoc" "") []
    "/yaml-godoc" "https://godoc.org/gopkg.in/yaml.v2" (by decide) (by decide)).2⟩

end Urlshort
